import Mathlib

/-!
Verification development for the ear_fish translation-chat repository
(Room Relay + Translation Cache subsystem).

Shallow embedding:
* `LANGUAGES`, `getMessageText`, `typingStep` are translated from
  `frontend/src/components/ChatRoom.jsx`.
* `calculateHitRatio` is translated from `redis-monitor.html`.
* The backend (FastAPI `main.py`, `translation_service.py`,
  `redis_connection_manager.py`) is not part of the available sources, so the
  Room Registry, Translator Client, Translation Cache, rate limiter and the
  Connection Relay broadcast step are modelled from the spec, each marked
  `Modelled from the spec:` in its doc comment.
-/

namespace EarFish

/-- Supported languages table, translated from `ChatRoom.jsx` lines 6-29:
the fixed enumeration of language codes to display names. -/
def LANGUAGES : List (String × String) :=
  [("en", "English"), ("es", "Spanish"), ("fr", "French"), ("de", "German"),
   ("it", "Italian"), ("pt", "Portuguese"), ("ru", "Russian"), ("ja", "Japanese"),
   ("ko", "Korean"), ("zh", "Chinese"), ("ar", "Arabic"), ("hi", "Hindi"),
   ("he", "Hebrew"), ("th", "Thai"), ("vi", "Vietnamese"), ("tr", "Turkish"),
   ("pl", "Polish"), ("nl", "Dutch"), ("sv", "Swedish"), ("da", "Danish"),
   ("no", "Norwegian"), ("fi", "Finnish")]

/-- The language codes of the `LANGUAGES` table. -/
def languageCodes : List String := LANGUAGES.map Prod.fst

/-- JavaScript-object lookup on an association list (`obj[key]`), returning
`none` for a missing property. -/
def jsLookup (l : List (String × String)) (k : String) : Option String :=
  (l.find? (fun p => p.1 = k)).map Prod.snd

/-- Outbound chat-message payload, from the outbound event schema
`{"type":"message", client_id, username, timestamp, sender_language,
original_text, translations}`. -/
structure OutMessage where
  client_id : String
  username : String
  timestamp : Nat
  sender_language : String
  original_text : String
  translations : List (String × String)
deriving Repr, DecidableEq

/-- Function `getMessageText`, translated from `ChatRoom.jsx` lines 187-200: show the
original when toggled or when the sender's language equals the local
language; otherwise `message.translations[language] || message.original_text`
(JavaScript `||` also falls back on the empty string). -/
def getMessageText (showOriginal : Nat → Bool) (language : String)
    (m : OutMessage) : String :=
  if showOriginal m.timestamp then m.original_text
  else if m.sender_language = language then m.original_text
  else
    match jsLookup m.translations language with
    | some t => if t = "" then m.original_text else t
    | none => m.original_text

/-- The `typing` branch of `websocket.current.onmessage`, translated from
`ChatRoom.jsx` lines 101-112: add the sender's username when the event is
from a different client with `is_typing` true, otherwise delete it. -/
def typingStep (localId : String) (s : Finset String)
    (client_id username : String) (is_typing : Bool) : Finset String :=
  if is_typing = true ∧ client_id ≠ localId then insert username s
  else s.erase username

/-- Function `calculateHitRatio`, translated from `redis-monitor.html` lines 303-307:
`(hits||0)` and `(misses||0)` treat a missing count as 0; a zero total
returns 0; otherwise `Math.round(((hits||0)/total)*100)`, embedded exactly as
`⌊(100*h/total) + 1/2⌋ = (200*h + total) / (2*total)` in natural division. -/
def calculateHitRatio (hits misses : Option Nat) : Nat :=
  let h := hits.getD 0
  let total := h + misses.getD 0
  if total = 0 then 0 else (200 * h + total) / (2 * total)

/-- Translation failure taxonomy from the spec's error-handling design. -/
inductive TransErr where
  | TranslationTimeout
  | RateLimited
  | UpstreamError
deriving Repr, DecidableEq

/-- An upstream translation provider: text, source language, target language
to a result or a failure. -/
def Upstream : Type := String → String → String → Except TransErr String

/-- Modelled from the spec: the Translator Client's configured timeout,
raised to 5 seconds in `translation_service.py` (not under the available
sources; the repository's fix notes record the increase from 1.5 s to 5.0 s). -/
def translationTimeoutSeconds : ℚ := 5

/-- Modelled from the spec: the upstream call under the Translator Client's
timeout — a call whose latency exceeds the timeout fails with
`TranslationTimeout`. -/
def callUpstreamWithTimeout (latency : ℚ) (result : String) :
    Except TransErr String :=
  if translationTimeoutSeconds < latency then Except.error TransErr.TranslationTimeout
  else Except.ok result

/-- Modelled from the spec: the fallible translation attempt of the
Translator Client (`translation_service.py` is not under the available
sources). If source equals target, pure pass-through without invoking the
upstream provider. -/
def attemptTranslate (u : Upstream) (text src tgt : String) :
    Except TransErr String :=
  if src = tgt then Except.ok text else u text src tgt

/-- Modelled from the spec: `translate` with the Translator Client's failure
semantics — any failure degrades to returning the original, untranslated
text rather than propagating an error to the caller. -/
def translate (u : Upstream) (text src tgt : String) : String :=
  match attemptTranslate u text src tgt with
  | Except.ok t => t
  | Except.error _ => text

/-- Cache key: (source text, source language, target language) — exact
triple, no normalization of the text. -/
abbrev TKey : Type := String × String × String

/-- Modelled from the spec: two-tier Translation Cache state — a shared
persistent tier (reachable or not) and a local fallback tier
(`translation_service.py` is not under the available sources). Tiers are
kept in insertion order, oldest first. -/
structure Cache where
  persistentUp : Bool
  persistent : List (TKey × String)
  localTier : List (TKey × String)

/-- Exact-key lookup in a cache tier. -/
def lookupKey (l : List (TKey × String)) (k : TKey) : Option String :=
  (l.find? (fun p => p.1 = k)).map Prod.snd

/-- Modelled from the spec: bounded insertion into the local fallback tier —
append the new entry and evict oldest-first (FIFO) down to the capacity. -/
def insertBounded (cap : Nat) (l : List (TKey × String)) (kv : TKey × String) :
    List (TKey × String) :=
  let l' := l ++ [kv]
  l'.drop (l'.length - cap)

/-- Modelled from the spec: `get_or_translate` of the Translation Cache —
look up the persistent tier (when reachable) by exact key; on miss the local
tier; on miss there invoke the Translator Client and write through to both
tiers (persistent best-effort, local always). Returns the text and whether
it came from a cache tier. -/
def get_or_translate (cap : Nat) (u : Upstream) (text src tgt : String)
    (c : Cache) : (String × Bool) × Cache :=
  match (if c.persistentUp then lookupKey c.persistent (text, src, tgt) else none) with
  | some v => ((v, true), c)
  | none =>
    match lookupKey c.localTier (text, src, tgt) with
    | some v => ((v, true), c)
    | none =>
      ((translate u text src tgt, false),
       { persistentUp := c.persistentUp
         persistent :=
           if c.persistentUp then
             c.persistent ++ [((text, src, tgt), translate u text src tgt)]
           else c.persistent
         localTier :=
           insertBounded cap c.localTier
             ((text, src, tgt), translate u text src tgt) })

/-- Modelled from the spec: the Connection Relay's per-language resolution —
source-language pass-through for the sender's own language (a pure
pass-through, not a cache entry), else the Translation Cache. -/
def resolveTarget (cap : Nat) (u : Upstream) (text src tgt : String)
    (c : Cache) : (String × Bool) × Cache :=
  if src = tgt then ((text, false), c)
  else get_or_translate cap u text src tgt c

/-- A registry membership record: client identifier, display name, language. -/
structure RegClient where
  client_id : String
  username : String
  language : String
deriving Repr, DecidableEq

/-- Modelled from the spec: Room Registry state — a durable backing store
(reachable or not) and the in-process mirror of the same (room, client)
records (`redis_connection_manager.py` is not under the available sources). -/
structure Registry where
  durableUp : Bool
  durable : List (String × RegClient)
  mirror : List (String × RegClient)

/-- A join or leave operation against the Room Registry. -/
inductive RegOp where
  | join (room_id client_id username language : String)
  | leave (client_id : String)

/-- Membership update shared by the mirror and the durable store: a join
appends the record when the client id is not yet present anywhere, a leave
filters the client out (idempotent). -/
def memStep (l : List (String × RegClient)) : RegOp → List (String × RegClient)
  | RegOp.join room cid uname lang =>
      if l.any (fun p => p.2.client_id = cid) then l
      else l ++ [(room, ⟨cid, uname, lang⟩)]
  | RegOp.leave cid => l.filter (fun p => ¬ p.2.client_id = cid)

/-- Modelled from the spec: applying a join/leave to the Room Registry —
the mirror is written first and always, the durable store best-effort
(only when reachable). -/
def applyRegOp (r : Registry) (op : RegOp) : Registry :=
  { durableUp := r.durableUp
    durable := if r.durableUp then memStep r.durable op else r.durable
    mirror := memStep r.mirror op }

/-- Modelled from the spec: `languages_in_room` — the distinct languages of
the room's current members, read from the durable store when reachable and
from the in-process mirror otherwise. -/
def languages_in_room (r : Registry) (room_id : String) : List String :=
  let src := if r.durableUp then r.durable else r.mirror
  (((src.filter (fun p => p.1 = room_id)).map (fun p => p.2.language))).dedup

/-- Modelled from the spec: `members` — the room's members in insertion
order, read like `languages_in_room`. -/
def members (r : Registry) (room_id : String) : List RegClient :=
  let src := if r.durableUp then r.durable else r.mirror
  (src.filter (fun p => p.1 = room_id)).map Prod.snd

/-- The registry of a fresh process whose durable backing is unreachable. -/
def initialDownRegistry : Registry :=
  { durableUp := false, durable := [], mirror := [] }

/-- Modelled from the spec: per-identity `RateLimitWindow` — counter and
window start, with the configured maximum and window length
(`RATE_LIMIT_MAX_REQUESTS` / `RATE_LIMIT_WINDOW_SECONDS` in `.env.example`). -/
structure RateLimiter where
  maxRequests : Nat
  windowSeconds : Nat
  count : Nat
  windowStart : Nat

/-- A fresh rate-limit window for one identity. -/
def initRateLimiter (maxR window now : Nat) : RateLimiter :=
  { maxRequests := maxR, windowSeconds := window, count := 0, windowStart := now }

/-- Modelled from the spec: admitting one request at time `now` — when the
window has elapsed the counter resets and a new window starts; under the
maximum the counter increments and the request is admitted; at the maximum
the request is refused and the state unchanged. -/
def rlRequest (rl : RateLimiter) (now : Nat) : Bool × RateLimiter :=
  if rl.windowStart + rl.windowSeconds ≤ now then
    if 0 < rl.maxRequests then
      (true, { rl with count := 1, windowStart := now })
    else
      (false, { rl with count := 0, windowStart := now })
  else
    if rl.count < rl.maxRequests then
      (true, { rl with count := rl.count + 1 })
    else
      (false, rl)

/-- Modelled from the spec: a translation request guarded by the rate
limiter — an over-limit call fails fast with `RateLimited` without
contacting the upstream provider. -/
def rateLimitedTranslate (u : Upstream) (rl : RateLimiter) (now : Nat)
    (text src tgt : String) : Except TransErr String × RateLimiter :=
  match rlRequest rl now with
  | (true, rl') => (attemptTranslate u text src tgt, rl')
  | (false, rl') => (Except.error TransErr.RateLimited, rl')

/-- Modelled from the spec: the Connection Relay's translation assembly —
for each distinct room language, obtain the text via `resolveTarget`
(pass-through for the sender's own language), threading the shared cache. -/
def buildTranslations (cap : Nat) (u : Upstream) (text src : String) :
    List String → Cache → List (String × String) × Cache
  | [], c => ([], c)
  | l :: ls, c =>
    ((l, (resolveTarget cap u text src l c).1.1) ::
      (buildTranslations cap u text src ls (resolveTarget cap u text src l c).2).1,
     (buildTranslations cap u text src ls (resolveTarget cap u text src l c).2).2)

/-- Modelled from the spec: handling one inbound chat message — assemble one
`ChatMessage` carrying all translations and broadcast the identical payload
to every member of the room. -/
def handleChatMessage (cap : Nat) (u : Upstream) (sender : RegClient)
    (text : String) (ts : Nat) (roomLangs : List String)
    (roomMembers : List RegClient) (c : Cache) :
    (List (RegClient × OutMessage)) × Cache :=
  (roomMembers.map (fun m =>
    (m, { client_id := sender.client_id, username := sender.username,
          timestamp := ts, sender_language := sender.language,
          original_text := text,
          translations :=
            (buildTranslations cap u text sender.language roomLangs c).1 })),
   (buildTranslations cap u text sender.language roomLangs c).2)

/-- Join-time error taxonomy from the spec's error-handling design. -/
inductive JoinError where
  | InvalidJoinRequest
  | AlreadyJoined
deriving Repr, DecidableEq

/-- A WebSocket join attempt: room id plus the `client_id`, `language` and
`username` query parameters. -/
structure JoinRequest where
  room_id : String
  client_id : String
  language : String
  username : String

/-- Outcome of the WebSocket handshake: whether it was accepted, the error
on rejection, whether the connection stays open, and the events emitted for
this connection. -/
structure HandshakeOutcome where
  accepted : Bool
  error : Option JoinError
  connectionOpen : Bool
  events : List String
deriving Repr, DecidableEq

/-- Modelled from the spec: the `Connecting` state's handshake validation
(backed by `main.py`, not under the available sources) — the language code
must be in the enumerated `LANGUAGES` set and the display name non-empty;
otherwise the handshake fails with `InvalidJoinRequest`, the connection is
closed and no further events are emitted for it. On success, `Connected`
triggers the `user_joined` broadcast. -/
def processHandshake (req : JoinRequest) : HandshakeOutcome :=
  if languageCodes.contains req.language ∧ req.username ≠ "" then
    { accepted := true, error := none, connectionOpen := true,
      events := ["user_joined"] }
  else
    { accepted := false, error := some JoinError.InvalidJoinRequest,
      connectionOpen := false, events := [] }

/-! ## Theorems -/

/-- C4: the Translator Client enforces a timeout of at least 5 seconds (the
earlier 1.5-second timeout is explicitly not the configured value), and a
call whose latency exceeds the timeout fails with `TranslationTimeout`. -/
theorem C4_timeout_at_least_five_seconds :
    5 ≤ translationTimeoutSeconds ∧
    translationTimeoutSeconds ≠ (1.5 : ℚ) ∧
    (∀ (latency : ℚ) (result : String),
      translationTimeoutSeconds < latency →
      callUpstreamWithTimeout latency result =
        Except.error TransErr.TranslationTimeout) := by
  refine ⟨by norm_num [translationTimeoutSeconds],
          by norm_num [translationTimeoutSeconds], ?_⟩
  intro latency result h
  simp [callUpstreamWithTimeout, h]

/-- Witness for C4 at latency 6 s. -/
theorem C4_timeout_at_least_five_seconds_witness :
    callUpstreamWithTimeout 6 "hello" =
      Except.error TransErr.TranslationTimeout :=
  C4_timeout_at_least_five_seconds.2.2 6 "hello"
    (by norm_num [translationTimeoutSeconds])

/-- C6: `translate(text, l, l)` returns `text` unchanged, independently of
the upstream provider (it is never invoked), and the relay's per-language
resolution for the sender's own language leaves the cache unchanged (no
cache entry). -/
theorem C6_identity_passthrough :
    ∀ (u : Upstream) (text l : String) (cap : Nat) (c : Cache),
      attemptTranslate u text l l = Except.ok text ∧
      translate u text l l = text ∧
      (∀ u' : Upstream, translate u' text l l = translate u text l l) ∧
      resolveTarget cap u text l l c = ((text, false), c) := by
  intro u text l cap c
  refine ⟨by simp [attemptTranslate], by simp [translate, attemptTranslate],
          fun u' => by simp [translate, attemptTranslate],
          by simp [resolveTarget]⟩

/-- C9: processing a typing event never adds the sender's username when the
event is the local client's own or when `is_typing` is false — those cases
remove it — and only an event from a different client with `is_typing` true
adds it. -/
theorem C9_typing_set_excludes_local_client :
    ∀ (localId : String) (s : Finset String) (cid uname : String) (t : Bool),
      (cid = localId → typingStep localId s cid uname t = s.erase uname) ∧
      (t = false → typingStep localId s cid uname t = s.erase uname) ∧
      (t = true → ¬ cid = localId →
        typingStep localId s cid uname t = insert uname s) ∧
      (cid = localId → uname ∉ typingStep localId s cid uname t) := by
  intro localId s cid uname t
  refine ⟨fun h => by simp [typingStep, h], fun h => by simp [typingStep, h],
          fun h1 h2 => by simp [typingStep, h1, h2], fun h => ?_⟩
  simp [typingStep, h]

/-- Witness for C9: the local client's own typing event removes rather than
adds, and an event from another client adds. -/
theorem C9_typing_set_excludes_local_client_witness :
    typingStep "me" {"bob"} "me" "alice" true = ({"bob"} : Finset String).erase "alice" ∧
    "alice" ∉ typingStep "me" {"bob"} "me" "alice" true ∧
    typingStep "me" {"bob"} "other" "alice" true = insert "alice" {"bob"} :=
  ⟨(C9_typing_set_excludes_local_client "me" {"bob"} "me" "alice" true).1 rfl,
   (C9_typing_set_excludes_local_client "me" {"bob"} "me" "alice" true).2.2.2 rfl,
   (C9_typing_set_excludes_local_client "me" {"bob"} "other" "alice" true).2.2.1
     rfl (by decide)⟩

/-- C10: the dashboard hit-ratio computation treats missing counts as zero,
returns 0 when hits plus misses is zero instead of dividing by zero, and
otherwise returns the hit percentage rounded to the nearest integer
(`2*total*r` is within `total` of `200*hits`, i.e. `r` is within 1/2 of
`100*hits/total`). -/
theorem C10_hit_ratio_total_and_rounded :
    (∀ hits misses : Option Nat,
      calculateHitRatio hits misses =
        calculateHitRatio (some (hits.getD 0)) (some (misses.getD 0))) ∧
    (∀ hits misses : Option Nat,
      hits.getD 0 + misses.getD 0 = 0 → calculateHitRatio hits misses = 0) ∧
    (∀ h m : Nat, h + m ≠ 0 →
      2 * (h + m) * calculateHitRatio (some h) (some m) ≤ 200 * h + (h + m) ∧
      200 * h ≤ 2 * (h + m) * calculateHitRatio (some h) (some m) + (h + m)) := by
  refine ⟨fun hits misses => rfl, fun hits misses h => by simp [calculateHitRatio, h], ?_⟩
  intro h m hne
  simp only [calculateHitRatio, Option.getD_some]
  rw [if_neg hne]
  have hb : 0 < 2 * (h + m) := by omega
  have h1 := Nat.div_add_mod (200 * h + (h + m)) (2 * (h + m))
  have h2 := Nat.mod_lt (200 * h + (h + m)) hb
  constructor <;> omega

/-- Witness for C10: zero total yields 0, and 1 hit / 2 misses rounds to a
value within half a percent of 100/3. -/
theorem C10_hit_ratio_total_and_rounded_witness :
    calculateHitRatio none (some 0) = 0 ∧
    2 * 3 * calculateHitRatio (some 1) (some 2) ≤ 200 * 1 + 3 ∧
    200 * 1 ≤ 2 * 3 * calculateHitRatio (some 1) (some 2) + 3 :=
  ⟨C10_hit_ratio_total_and_rounded.2.1 none (some 0) (by decide),
   (C10_hit_ratio_total_and_rounded.2.2 1 2 (by decide)).1,
   (C10_hit_ratio_total_and_rounded.2.2 1 2 (by decide)).2⟩

/-- C7: the enumerated language table has exactly 22 codes; a join handshake
is accepted exactly when the language is one of them and the display name is
non-empty; a rejected handshake fails with `InvalidJoinRequest`, closes the
connection and emits no events. -/
theorem C7_handshake_validates_language_and_name :
    LANGUAGES.length = 22 ∧
    (∀ req : JoinRequest,
      (processHandshake req).accepted = true ↔
        (languageCodes.contains req.language = true ∧ ¬ req.username = "")) ∧
    (∀ req : JoinRequest, (processHandshake req).accepted = false →
      (processHandshake req).error = some JoinError.InvalidJoinRequest ∧
      (processHandshake req).connectionOpen = false ∧
      (processHandshake req).events = []) := by
  refine ⟨rfl, fun req => ?_, fun req h => ?_⟩
  · unfold processHandshake
    split_ifs with hc
    · simpa using hc
    · simp only [not_and_or] at hc
      constructor
      · intro hfalse; exact absurd hfalse (by simp)
      · intro ⟨h1, h2⟩
        rcases hc with hc | hc
        · exact absurd h1 (by simpa using hc)
        · exact absurd h2 hc
  · unfold processHandshake at h ⊢
    split_ifs at h ⊢ with hc
    exact ⟨rfl, rfl, rfl⟩

/-- Witness for C7: an unsupported code `xx` is rejected with no events, and
`en` with a non-empty name is accepted. -/
theorem C7_handshake_validates_language_and_name_witness :
    (processHandshake ⟨"r1", "c1", "xx", "bob"⟩).accepted = false ∧
    (processHandshake ⟨"r1", "c1", "xx", "bob"⟩).events = [] ∧
    (processHandshake ⟨"r1", "c1", "en", "bob"⟩).accepted = true :=
  ⟨by decide,
   (C7_handshake_validates_language_and_name.2.2 ⟨"r1", "c1", "xx", "bob"⟩
     (by decide)).2.2,
   (C7_handshake_validates_language_and_name.2.1 ⟨"r1", "c1", "en", "bob"⟩).mpr
     ⟨by decide, by decide⟩⟩

/-- One rate-limiter step preserves the counter bound and leaves the
configuration untouched. -/
lemma rlRequest_preserves (rl : RateLimiter) (now : Nat)
    (h : rl.count ≤ rl.maxRequests) :
    (rlRequest rl now).2.count ≤ rl.maxRequests ∧
    (rlRequest rl now).2.maxRequests = rl.maxRequests ∧
    (rlRequest rl now).2.windowSeconds = rl.windowSeconds := by
  unfold rlRequest
  split_ifs <;> simp_all <;> omega

/-- The counter bound holds along any sequence of request times. -/
lemma rlFold_invariant (times : List Nat) :
    ∀ rl : RateLimiter, rl.count ≤ rl.maxRequests →
      (times.foldl (fun rl now => (rlRequest rl now).2) rl).count ≤ rl.maxRequests ∧
      (times.foldl (fun rl now => (rlRequest rl now).2) rl).maxRequests = rl.maxRequests := by
  induction times with
  | nil => intro rl h; exact ⟨h, rfl⟩
  | cons t ts ih =>
    intro rl h
    have hp := rlRequest_preserves rl t h
    have := ih (rlRequest rl t).2 (by omega)
    simp only [List.foldl_cons]
    omega

/-- C8: a rate-limiter step keeps the counter at or below the configured
maximum and so does any sequence of requests from a fresh window; a request
arriving at the maximum inside the active window fails fast with
`RateLimited` — unchanged state and no dependence on the upstream provider;
when the window has elapsed the window restarts at `now` with the counter
reset. -/
theorem C8_rate_limit_counter_bounded :
    (∀ (rl : RateLimiter) (now : Nat), rl.count ≤ rl.maxRequests →
      (rlRequest rl now).2.count ≤ rl.maxRequests) ∧
    (∀ (maxR window start : Nat) (times : List Nat),
      (times.foldl (fun rl now => (rlRequest rl now).2)
        (initRateLimiter maxR window start)).count ≤ maxR) ∧
    (∀ (rl : RateLimiter) (now : Nat),
      now < rl.windowStart + rl.windowSeconds → rl.maxRequests ≤ rl.count →
      ∀ (u : Upstream) (text src tgt : String),
        rateLimitedTranslate u rl now text src tgt =
          (Except.error TransErr.RateLimited, rl)) ∧
    (∀ (rl : RateLimiter) (now : Nat),
      rl.windowStart + rl.windowSeconds ≤ now →
      (rlRequest rl now).2.windowStart = now ∧ (rlRequest rl now).2.count ≤ 1) := by
  refine ⟨fun rl now h => (rlRequest_preserves rl now h).1,
          fun maxR window start times =>
            (rlFold_invariant times (initRateLimiter maxR window start)
              (by simp [initRateLimiter])).1,
          fun rl now h1 h2 u text src tgt => ?_, fun rl now h => ?_⟩
  · unfold rateLimitedTranslate rlRequest
    rw [if_neg (by omega), if_neg (by omega)]
  · unfold rlRequest
    rw [if_pos h]
    split_ifs <;> simp

/-- Witness for C8: at the maximum of 2 requests inside a 60 s window the
call is refused without touching upstream; at time 160 the elapsed window
restarts. -/
theorem C8_rate_limit_counter_bounded_witness :
    rateLimitedTranslate (fun _ _ _ => Except.ok "t") ⟨2, 60, 2, 100⟩ 130
        "hi" "en" "he" =
      (Except.error TransErr.RateLimited, ⟨2, 60, 2, 100⟩) ∧
    (rlRequest ⟨2, 60, 2, 100⟩ 160).2.windowStart = 160 :=
  ⟨C8_rate_limit_counter_bounded.2.2.1 ⟨2, 60, 2, 100⟩ 130 (by decide) (by decide)
     (fun _ _ _ => Except.ok "t") "hi" "en" "he",
   (C8_rate_limit_counter_bounded.2.2.2 ⟨2, 60, 2, 100⟩ 160 (by decide)).1⟩

/-- With the durable store down, folding join/leave operations only updates
the in-process mirror, and it updates it on every operation. -/
lemma foldl_applyRegOp_down (ops : List RegOp) :
    ∀ (d m : List (String × RegClient)),
      ops.foldl applyRegOp ⟨false, d, m⟩ = ⟨false, d, ops.foldl memStep m⟩ := by
  induction ops with
  | nil => intro d m; rfl
  | cons op ops ih =>
    intro d m
    simp only [List.foldl_cons]
    have : applyRegOp ⟨false, d, m⟩ op = ⟨false, d, memStep m op⟩ := by
      simp [applyRegOp]
    rw [this, ih]

/-- C2: for every history of join/leave operations applied while the
durable backing store is unreachable, `languages_in_room` returns the
distinct languages of the room's current members — exactly the set the
local join/leave history dictates (a language appears iff some current
member of the room speaks it), never a default set. -/
theorem C2_languages_in_room_correct_when_store_down :
    ∀ (ops : List RegOp) (room : String),
      (languages_in_room (ops.foldl applyRegOp initialDownRegistry) room =
        ((members (ops.foldl applyRegOp initialDownRegistry) room).map
          (fun c => c.language)).dedup) ∧
      (languages_in_room (ops.foldl applyRegOp initialDownRegistry) room =
        (((ops.foldl memStep []).filter (fun p => p.1 = room)).map
          (fun p => p.2.language)).dedup) ∧
      (∀ l : String,
        l ∈ languages_in_room (ops.foldl applyRegOp initialDownRegistry) room ↔
        ∃ p ∈ ops.foldl memStep ([] : List (String × RegClient)),
          p.1 = room ∧ p.2.language = l) := by
  intro ops room
  have hreg := foldl_applyRegOp_down ops [] []
  rw [show (initialDownRegistry : Registry) = ⟨false, [], []⟩ from rfl, hreg]
  refine ⟨?_, ?_, ?_⟩
  · simp [languages_in_room, members, List.map_map]
    rfl
  · rfl
  · intro l
    simp only [languages_in_room, List.mem_dedup, List.mem_map, List.mem_filter]
    constructor
    · rintro ⟨p, ⟨hp, hroom⟩, hl⟩
      exact ⟨p, hp, by simpa using hroom, hl⟩
    · rintro ⟨p, hp, hroom, hl⟩
      exact ⟨p, ⟨hp, by simpa using hroom⟩, hl⟩

/-- Witness for C2: with the store down, after an English and a Hebrew
client join, `languages_in_room` reports Hebrew (the regression scenario
for the always-defaults-to-English bug). -/
theorem C2_languages_in_room_correct_when_store_down_witness :
    "he" ∈ languages_in_room
      ([RegOp.join "r" "c1" "alice" "en",
        RegOp.join "r" "c2" "bob" "he"].foldl applyRegOp initialDownRegistry)
      "r" :=
  ((C2_languages_in_room_correct_when_store_down
      [RegOp.join "r" "c1" "alice" "en", RegOp.join "r" "c2" "bob" "he"]
      "r").2.2 "he").mpr
    ⟨("r", ⟨"c2", "bob", "he"⟩), by decide, rfl, rfl⟩

/-- Key `k` is missing from both cache tiers. -/
def keyAbsent (k : TKey) (c : Cache) : Prop :=
  lookupKey c.persistent k = none ∧ lookupKey c.localTier k = none

/-- A tier misses a key exactly when no entry carries it. -/
lemma lookupKey_eq_none_iff (l : List (TKey × String)) (k : TKey) :
    lookupKey l k = none ↔ ∀ p ∈ l, ¬ p.1 = k := by
  simp [lookupKey, List.find?_eq_none]

/-- Appending an entry for a missing key makes its lookup succeed. -/
lemma lookupKey_append_self (l : List (TKey × String)) (k : TKey) (v : String)
    (h : lookupKey l k = none) : lookupKey (l ++ [(k, v)]) k = some v := by
  unfold lookupKey at *
  rw [List.find?_append]
  have hf : l.find? (fun p => p.1 = k) = none := by
    cases hx : l.find? (fun p => p.1 = k) with
    | none => rfl
    | some p => rw [hx] at h; simp at h
  rw [hf]
  simp

/-- Appending an entry for a different key keeps a key missing. -/
lemma lookupKey_append_ne (l : List (TKey × String)) (k k' : TKey) (v : String)
    (hne : ¬ k' = k) (h : lookupKey l k = none) :
    lookupKey (l ++ [(k', v)]) k = none := by
  rw [lookupKey_eq_none_iff] at h ⊢
  intro p hp
  rcases List.mem_append.mp hp with hp | hp
  · exact h p hp
  · simp at hp
    subst hp
    exact hne

/-- Dropping entries keeps a key missing. -/
lemma lookupKey_drop_none (l : List (TKey × String)) (k : TKey) (n : Nat)
    (h : lookupKey l k = none) : lookupKey (l.drop n) k = none := by
  rw [lookupKey_eq_none_iff] at h ⊢
  exact fun p hp => h p (List.mem_of_mem_drop hp)

/-- Bounded insertion of a different key keeps a key missing. -/
lemma lookupKey_insertBounded_ne (cap : Nat) (l : List (TKey × String))
    (k k' : TKey) (v : String) (hne : ¬ k' = k) (h : lookupKey l k = none) :
    lookupKey (insertBounded cap l (k', v)) k = none :=
  lookupKey_drop_none _ _ _ (lookupKey_append_ne l k k' v hne h)

/-- With capacity at least one, a freshly inserted entry is found. -/
lemma lookupKey_insertBounded_self (cap : Nat) (l : List (TKey × String))
    (k : TKey) (v : String) (hcap : 1 ≤ cap) (h : lookupKey l k = none) :
    lookupKey (insertBounded cap l (k, v)) k = some v := by
  unfold insertBounded
  have hlen : (l ++ [(k, v)]).length - cap ≤ l.length := by
    simp only [List.length_append, List.length_singleton]
    omega
  rw [List.drop_append_of_le_length hlen]
  exact lookupKey_append_self _ _ _ (lookupKey_drop_none l k _ h)

/-- `get_or_translate` for one key never creates an entry for another key. -/
lemma keyAbsent_get_or_translate (cap : Nat) (u : Upstream)
    (text src tgt : String) (c : Cache) (k : TKey)
    (hne : ¬ (text, src, tgt) = k) (h : keyAbsent k c) :
    keyAbsent k (get_or_translate cap u text src tgt c).2 := by
  unfold get_or_translate
  split
  · exact h
  · split
    · exact h
    · refine ⟨?_, ?_⟩
      · by_cases hup : c.persistentUp <;>
          simp only [hup, if_true, if_false, reduceIte]
        · exact lookupKey_append_ne _ _ _ _ hne h.1
        · exact h.1
      · exact lookupKey_insertBounded_ne _ _ _ _ _ hne h.2

/-- C5: translating the same (text, source, target) triple twice returns
the same text on the second call and the second call is a cache hit; cache
keys compare the text verbatim, so a call with any different text — even a
case or whitespace variant — still misses after the first call. -/
theorem C5_get_or_translate_idempotent_verbatim_keys :
    ∀ (cap : Nat) (u : Upstream) (text src tgt : String) (c : Cache),
      1 ≤ cap →
      ((get_or_translate cap u text src tgt
          (get_or_translate cap u text src tgt c).2).1.1 =
        (get_or_translate cap u text src tgt c).1.1 ∧
       (get_or_translate cap u text src tgt
          (get_or_translate cap u text src tgt c).2).1.2 = true) ∧
      (∀ text2 : String, ¬ text2 = text →
        keyAbsent (text2, src, tgt) c →
        (get_or_translate cap u text2 src tgt
            (get_or_translate cap u text src tgt c).2).1.2 = false) := by
  intro cap u text src tgt c hcap
  constructor
  · by_cases hup : c.persistentUp
    · cases hp : lookupKey c.persistent (text, src, tgt) with
      | some v =>
        simp only [get_or_translate, hup, if_true, hp]
        exact ⟨by trivial, by trivial⟩
      | none =>
        cases hl : lookupKey c.localTier (text, src, tgt) with
        | some v =>
          simp only [get_or_translate, hup, if_true, hp, hl]
          exact ⟨by trivial, by trivial⟩
        | none =>
          have hself := lookupKey_append_self c.persistent (text, src, tgt)
            (translate u text src tgt) hp
          simp only [get_or_translate, hup, if_true, hp, hl, hself]
          exact ⟨by trivial, by trivial⟩
    · simp only [Bool.not_eq_true] at hup
      cases hl : lookupKey c.localTier (text, src, tgt) with
      | some v =>
        simp only [get_or_translate, hup, Bool.false_eq_true, if_false, hl]
        exact ⟨by trivial, by trivial⟩
      | none =>
        have hself := lookupKey_insertBounded_self cap c.localTier (text, src, tgt)
          (translate u text src tgt) hcap hl
        simp only [get_or_translate, hup, Bool.false_eq_true, if_false, hl, hself]
        exact ⟨by trivial, by trivial⟩
  · intro text2 hne habs
    have habs' : keyAbsent (text2, src, tgt)
        (get_or_translate cap u text src tgt c).2 := by
      apply keyAbsent_get_or_translate
      · intro h
        apply hne
        exact (congrArg Prod.fst h).symm
      · exact habs
    set c1 := (get_or_translate cap u text src tgt c).2 with hc1
    by_cases hup : c1.persistentUp
    · simp only [get_or_translate, hup, if_true, habs'.1, habs'.2]
    · simp only [Bool.not_eq_true] at hup
      simp only [get_or_translate, hup, Bool.false_eq_true, if_false, habs'.2]

/-- Witness for C5: with capacity 1 a repeated call for
("Hello", en, he) hits, and the case variant "hello" still misses. -/
theorem C5_get_or_translate_idempotent_verbatim_keys_witness :
    ((get_or_translate 1 (fun _ _ _ => Except.ok "shalom") "Hello" "en" "he"
        (get_or_translate 1 (fun _ _ _ => Except.ok "shalom") "Hello" "en" "he"
          ⟨true, [], []⟩).2).1.2 = true) ∧
    ((get_or_translate 1 (fun _ _ _ => Except.ok "shalom") "hello" "en" "he"
        (get_or_translate 1 (fun _ _ _ => Except.ok "shalom") "Hello" "en" "he"
          ⟨true, [], []⟩).2).1.2 = false) :=
  ⟨((C5_get_or_translate_idempotent_verbatim_keys 1
      (fun _ _ _ => Except.ok "shalom") "Hello" "en" "he" ⟨true, [], []⟩
      (by decide)).1).2,
   ((C5_get_or_translate_idempotent_verbatim_keys 1
      (fun _ _ _ => Except.ok "shalom") "Hello" "en" "he" ⟨true, [], []⟩
      (by decide)).2) "hello" (by decide) ⟨rfl, rfl⟩⟩

/-- The relay's per-language resolution never creates an entry for a
different key. -/
lemma keyAbsent_resolveTarget (cap : Nat) (u : Upstream)
    (text src tgt : String) (c : Cache) (k : TKey)
    (hne : ¬ (text, src, tgt) = k) (h : keyAbsent k c) :
    keyAbsent k (resolveTarget cap u text src tgt c).2 := by
  unfold resolveTarget
  split
  · exact h
  · exact keyAbsent_get_or_translate _ _ _ _ _ _ _ hne h

/-- The assembled translations carry exactly one entry per room language,
in order. -/
lemma buildTranslations_keys (cap : Nat) (u : Upstream) (text src : String) :
    ∀ (langs : List String) (c : Cache),
      (buildTranslations cap u text src langs c).1.map Prod.fst = langs := by
  intro langs
  induction langs with
  | nil => intro c; rfl
  | cons l ls ih =>
    intro c
    simp only [buildTranslations, List.map_cons, ih]

/-- A cache-missing target whose upstream call fails resolves to the
original text. -/
lemma resolveTarget_miss_error (cap : Nat) (u : Upstream)
    (text src tgt : String) (c : Cache) (e : TransErr)
    (hne : ¬ src = tgt) (habs : keyAbsent (text, src, tgt) c)
    (herr : u text src tgt = Except.error e) :
    (resolveTarget cap u text src tgt c).1.1 = text := by
  unfold resolveTarget
  rw [if_neg hne]
  by_cases hup : c.persistentUp
  · simp only [get_or_translate, hup, if_true, habs.1, habs.2]
    simp [translate, attemptTranslate, hne, herr]
  · simp only [Bool.not_eq_true] at hup
    simp only [get_or_translate, hup, Bool.false_eq_true, if_false, habs.2]
    simp [translate, attemptTranslate, hne, herr]

/-- Along the assembly of all room languages, a target whose key is missing
from the cache and whose upstream call fails ends up mapped to the original
text. -/
lemma buildTranslations_miss_error (cap : Nat) (u : Upstream)
    (text src : String) (e : TransErr) :
    ∀ (langs : List String) (c : Cache) (tgt : String),
      tgt ∈ langs → ¬ src = tgt →
      keyAbsent (text, src, tgt) c →
      u text src tgt = Except.error e →
      jsLookup (buildTranslations cap u text src langs c).1 tgt = some text := by
  intro langs
  induction langs with
  | nil =>
    intro c tgt hmem
    simp at hmem
  | cons l ls ih =>
    intro c tgt hmem hne habs herr
    by_cases hl : l = tgt
    · subst hl
      have hv := resolveTarget_miss_error cap u text src l c e hne habs herr
      simp only [buildTranslations, jsLookup, List.find?_cons, hv]
      simp
    · have htgt : tgt ∈ ls := by
        rcases List.mem_cons.mp hmem with h | h
        · exact absurd h.symm hl
        · exact h
      have hne2 : ¬ ((text, src, l) : TKey) = (text, src, tgt) := by
        intro h
        exact hl (congrArg (fun p : TKey => p.2.2) h)
      have habs2 := keyAbsent_resolveTarget cap u text src l c _ hne2 habs
      have hrec := ih (resolveTarget cap u text src l c).2 tgt htgt hne habs2 herr
      simp only [buildTranslations, jsLookup] at hrec ⊢
      rw [List.find?_cons_of_neg]
      · exact hrec
      · simp [hl]

/-- C3: when the translation step for a target language fails (the key is
not cached and the upstream call returns `TranslationTimeout`, `RateLimited`
or an upstream error), the relay still maps that target to the original
text, the message is still delivered to every member, and the receiving
client displays the original text — no error reaches anyone. -/
theorem C3_failure_degrades_to_original_text :
    ∀ (cap : Nat) (u : Upstream) (sender : RegClient) (text : String)
      (ts : Nat) (langs : List String) (mems : List RegClient) (c : Cache)
      (tgt : String) (e : TransErr),
      tgt ∈ langs → ¬ sender.language = tgt →
      keyAbsent (text, sender.language, tgt) c →
      u text sender.language tgt = Except.error e →
      (jsLookup (buildTranslations cap u text sender.language langs c).1 tgt =
        some text) ∧
      (∀ m ∈ mems,
        (m, ({ client_id := sender.client_id, username := sender.username,
               timestamp := ts, sender_language := sender.language,
               original_text := text,
               translations :=
                 (buildTranslations cap u text sender.language langs c).1 } :
            OutMessage)) ∈
          (handleChatMessage cap u sender text ts langs mems c).1) ∧
      (getMessageText (fun _ => false) tgt
        { client_id := sender.client_id, username := sender.username,
          timestamp := ts, sender_language := sender.language,
          original_text := text,
          translations :=
            (buildTranslations cap u text sender.language langs c).1 } = text) := by
  intro cap u sender text ts langs mems c tgt e hmem hne habs herr
  have hlook := buildTranslations_miss_error cap u text sender.language e
    langs c tgt hmem hne habs herr
  refine ⟨hlook, ?_, ?_⟩
  · intro m hm
    simp only [handleChatMessage, List.mem_map]
    exact ⟨m, hm, rfl⟩
  · unfold getMessageText
    simp only [Bool.false_eq_true, if_false, hne, hlook]
    by_cases h0 : text = ""
    · simp [h0]
    · simp [h0]

/-- Witness for C3: a timing-out upstream still yields the original "hi" as
the Hebrew translation, delivered to the Hebrew-speaking member. -/
theorem C3_failure_degrades_to_original_text_witness :
    jsLookup
      (buildTranslations 1 (fun _ _ _ => Except.error TransErr.TranslationTimeout)
        "hi" "en" ["en", "he"] ⟨true, [], []⟩).1 "he" = some "hi" ∧
    (⟨"c2", "bob", "he"⟩,
      ({ client_id := "c1", username := "alice", timestamp := 0,
         sender_language := "en", original_text := "hi",
         translations :=
           (buildTranslations 1
             (fun _ _ _ => Except.error TransErr.TranslationTimeout)
             "hi" "en" ["en", "he"] ⟨true, [], []⟩).1 } : OutMessage)) ∈
      (handleChatMessage 1 (fun _ _ _ => Except.error TransErr.TranslationTimeout)
        ⟨"c1", "alice", "en"⟩ "hi" 0 ["en", "he"]
        [⟨"c1", "alice", "en"⟩, ⟨"c2", "bob", "he"⟩] ⟨true, [], []⟩).1 :=
  ⟨(C3_failure_degrades_to_original_text 1
      (fun _ _ _ => Except.error TransErr.TranslationTimeout)
      ⟨"c1", "alice", "en"⟩ "hi" 0 ["en", "he"]
      [⟨"c1", "alice", "en"⟩, ⟨"c2", "bob", "he"⟩] ⟨true, [], []⟩ "he"
      TransErr.TranslationTimeout (by decide) (by decide) ⟨rfl, rfl⟩ rfl).1,
   (C3_failure_degrades_to_original_text 1
      (fun _ _ _ => Except.error TransErr.TranslationTimeout)
      ⟨"c1", "alice", "en"⟩ "hi" 0 ["en", "he"]
      [⟨"c1", "alice", "en"⟩, ⟨"c2", "bob", "he"⟩] ⟨true, [], []⟩ "he"
      TransErr.TranslationTimeout (by decide) (by decide) ⟨rfl, rfl⟩ rfl).2.1
     ⟨"c2", "bob", "he"⟩ (by simp)⟩

/-- A language among the translation keys has a lookup value. -/
lemma jsLookup_isSome_of_mem_keys (trs : List (String × String)) (l : String)
    (h : l ∈ trs.map Prod.fst) : ∃ v, jsLookup trs l = some v := by
  rcases List.mem_map.mp h with ⟨p, hp, hfst⟩
  have hs : (trs.find? (fun q => q.1 = l)).isSome := by
    rw [List.find?_isSome]
    exact ⟨p, hp, by simp [hfst]⟩
  rcases Option.isSome_iff_exists.mp hs with ⟨q, hq⟩
  exact ⟨q.2, by simp [jsLookup, hq]⟩

/-- C1: the broadcast chat message carries a translations map with one
entry per room language (so every language of the room, the sender's own
included, has an entry), the identical payload is delivered to every member
of the room, and the client selects its own displayed language from that
map client-side (`getMessageText`). -/
theorem C1_broadcast_carries_all_room_languages :
    ∀ (cap : Nat) (u : Upstream) (sender : RegClient) (text : String)
      (ts : Nat) (langs : List String) (mems : List RegClient) (c : Cache),
      ((buildTranslations cap u text sender.language langs c).1.map Prod.fst =
        langs) ∧
      (∀ l ∈ langs, ∃ v,
        jsLookup (buildTranslations cap u text sender.language langs c).1 l =
          some v) ∧
      (∀ m ∈ mems,
        (m, ({ client_id := sender.client_id, username := sender.username,
               timestamp := ts, sender_language := sender.language,
               original_text := text,
               translations :=
                 (buildTranslations cap u text sender.language langs c).1 } :
            OutMessage)) ∈
          (handleChatMessage cap u sender text ts langs mems c).1) ∧
      (∀ p ∈ (handleChatMessage cap u sender text ts langs mems c).1,
        p.2 = { client_id := sender.client_id, username := sender.username,
                timestamp := ts, sender_language := sender.language,
                original_text := text,
                translations :=
                  (buildTranslations cap u text sender.language langs c).1 }) ∧
      (∀ (m : OutMessage) (lang t : String),
        jsLookup m.translations lang = some t → ¬ t = "" →
        ¬ m.sender_language = lang →
        getMessageText (fun _ => false) lang m = t) := by
  intro cap u sender text ts langs mems c
  refine ⟨buildTranslations_keys cap u text sender.language langs c,
          fun l hl => ?_, fun m hm => ?_, fun p hp => ?_,
          fun m lang t hlook h0 hne => ?_⟩
  · exact jsLookup_isSome_of_mem_keys _ l
      (by rw [buildTranslations_keys]; exact hl)
  · simp only [handleChatMessage, List.mem_map]
    exact ⟨m, hm, rfl⟩
  · simp only [handleChatMessage, List.mem_map] at hp
    rcases hp with ⟨m, hm, hpeq⟩
    rw [← hpeq]
  · unfold getMessageText
    simp [hne, hlook, h0]

/-- Witness for C1: in an {en, he} room the broadcast message carries a
Hebrew entry, and the Hebrew-speaking member receives the same payload. -/
theorem C1_broadcast_carries_all_room_languages_witness :
    (∃ v, jsLookup
      (buildTranslations 1 (fun _ _ _ => Except.ok "ma shlomkha") "How are you?"
        "en" ["en", "he"] ⟨true, [], []⟩).1 "he" = some v) ∧
    (⟨"c2", "bob", "he"⟩,
      ({ client_id := "c1", username := "alice", timestamp := 7,
         sender_language := "en", original_text := "How are you?",
         translations :=
           (buildTranslations 1 (fun _ _ _ => Except.ok "ma shlomkha")
             "How are you?" "en" ["en", "he"] ⟨true, [], []⟩).1 } : OutMessage)) ∈
      (handleChatMessage 1 (fun _ _ _ => Except.ok "ma shlomkha")
        ⟨"c1", "alice", "en"⟩ "How are you?" 7 ["en", "he"]
        [⟨"c1", "alice", "en"⟩, ⟨"c2", "bob", "he"⟩] ⟨true, [], []⟩).1 :=
  ⟨(C1_broadcast_carries_all_room_languages 1
      (fun _ _ _ => Except.ok "ma shlomkha") ⟨"c1", "alice", "en"⟩
      "How are you?" 7 ["en", "he"]
      [⟨"c1", "alice", "en"⟩, ⟨"c2", "bob", "he"⟩] ⟨true, [], []⟩).2.1 "he"
      (by simp),
   (C1_broadcast_carries_all_room_languages 1
      (fun _ _ _ => Except.ok "ma shlomkha") ⟨"c1", "alice", "en"⟩
      "How are you?" 7 ["en", "he"]
      [⟨"c1", "alice", "en"⟩, ⟨"c2", "bob", "he"⟩] ⟨true, [], []⟩).2.2.1
      ⟨"c2", "bob", "he"⟩ (by simp)⟩

end EarFish
